import Mathlib

/-
A shallow embedding of the json-toolkit value model
(include/json-toolkit/json.h).

Nodes (`details::Node` and its subclasses) live in a heap; a `Json`
handle is a `std::shared_ptr<details::Node>`, modeled as the address of
the node it points to.  The heap is a list of nodes, the address of a
node being its position in the list; allocation (`std::make_shared`)
appends at the end, so an address is valid exactly when it is below the
heap length.  Addresses 0, 1 and 2 are reserved for the three
process-wide singletons `NullNode::get()`, `BooleanNode::True()` and
`BooleanNode::False()`.
-/

set_option autoImplicit false

namespace json

/-- The `JsonType` enumeration (json.h lines 18-27), in declared order
Null < Boolean < Integer < Number < String < Array < Object. -/
inductive JsonType where
  | Null
  | Boolean
  | Integer
  | Number
  | String
  | Array
  | Object
deriving DecidableEq

/-- The value of `static_cast<int>` on a `JsonType`. -/
def JsonType.toIdx : JsonType → Int
  | .Null => 0
  | .Boolean => 1
  | .Integer => 2
  | .Number => 3
  | .String => 4
  | .Array => 5
  | .Object => 6

/-- Two's-complement wraparound of C++ 32-bit signed `int` arithmetic:
the value an overflowing `int` expression evaluates to on the usual
two's-complement targets. -/
def wrap32 (z : Int) : Int := (z + 2 ^ 31) % 2 ^ 32 - 2 ^ 31

/-- The sign idiom `(0 < diff) - (diff < 0)` used throughout the
comparison functions of json.h. -/
def sign (z : Int) : Int := (if 0 < z then 1 else 0) - (if z < 0 then 1 else 0)

/-- The sign idiom applied to a rational difference; doubles are modeled
as rationals (every finite double is a rational, and the sign of the
rounded difference of two finite doubles equals the sign of the exact
difference). -/
def qsign (q : ℚ) : Int := (if 0 < q then 1 else 0) - (if q < 0 then 1 else 0)

/-- `std::string::compare`: lexicographic byte comparison, modeled by its
sign (the standard only specifies the sign of the result). -/
def strCompare (a b : String) : Int := if a < b then -1 else if b < a then 1 else 0

/-- An address in the node heap: the model of a `std::shared_ptr<details::Node>`. -/
abbrev Addr := Nat

/-- The closed set of node payloads: `NullNode`, `BooleanNode`,
`IntegerNode` (C++ `int`), `NumberNode` (C++ `double`, modeled as ℚ),
`StringNode`, `ArrayNode` (a `std::vector<Json>`, i.e. a sequence of
handles = addresses) and `ObjectNode` (a `std::map<std::string, Json>`,
i.e. a key-sorted association list of handles). -/
inductive Node where
  | nullNode
  | booleanNode (value : Bool)
  | integerNode (value : Int)
  | numberNode (value : ℚ)
  | stringNode (value : String)
  | arrayNode (value : List Addr)
  | objectNode (value : List (String × Addr))
deriving DecidableEq

/-- The virtual `type()` of each node class. -/
def Node.jsonType : Node → JsonType
  | .nullNode => .Null
  | .booleanNode _ => .Boolean
  | .integerNode _ => .Integer
  | .numberNode _ => .Number
  | .stringNode _ => .String
  | .arrayNode _ => .Array
  | .objectNode _ => .Object

/-- The node heap: address `a` holds `nodes[a]`. -/
structure Heap where
  nodes : List Node
deriving DecidableEq

/-- Address of the `NullNode::get()` singleton. -/
def NULL_ADDR : Addr := 0

/-- Address of the `BooleanNode::True()` singleton. -/
def TRUE_ADDR : Addr := 1

/-- Address of the `BooleanNode::False()` singleton. -/
def FALSE_ADDR : Addr := 2

/-- The heap at startup: the three singletons, nothing else. -/
def initHeap : Heap := ⟨[.nullNode, .booleanNode true, .booleanNode false]⟩

/-- A heap in which the three singleton addresses hold their singletons
(true of `initHeap` and preserved by every operation, since nodes are
only appended or mutated in place at container addresses). -/
def goodHeap (h : Heap) : Prop :=
  h.nodes[NULL_ADDR]? = some .nullNode ∧
  h.nodes[TRUE_ADDR]? = some (.booleanNode true) ∧
  h.nodes[FALSE_ADDR]? = some (.booleanNode false)

instance goodHeap.dec (h : Heap) : Decidable (goodHeap h) := by
  unfold goodHeap; infer_instance

/-- `std::make_shared<...>`: allocate a fresh node, returning the new heap
and the fresh address. -/
def alloc (h : Heap) (n : Node) : Heap × Addr := (⟨h.nodes ++ [n]⟩, h.nodes.length)

/-- `Json::type()` seen through a handle (`d->type()`); `none` models a
dangling address, which cannot arise for handles produced by the API. -/
def typeOf (h : Heap) (a : Addr) : Option JsonType := (h.nodes[a]?).map Node.jsonType

/-- `Json::Json()`: `d = std::make_shared<details::ObjectNode>()`. -/
def jsonDefault (h : Heap) : Heap × Addr := alloc h (.objectNode [])

/-- `Json::Json(std::nullptr_t)`: `d = details::NullNode::get()` (singleton, no allocation). -/
def jsonFromNull (h : Heap) : Heap × Addr := (h, NULL_ADDR)

/-- `Json::Json(bool)`: `d = std::make_shared<details::BooleanNode>(bval)`
(note: a fresh node, not the `True()`/`False()` singleton). -/
def jsonFromBool (h : Heap) (bval : Bool) : Heap × Addr := alloc h (.booleanNode bval)

/-- `Json::Json(int)`. -/
def jsonFromInt (h : Heap) (ival : Int) : Heap × Addr := alloc h (.integerNode ival)

/-- `Json::Json(double)`. -/
def jsonFromDouble (h : Heap) (nval : ℚ) : Heap × Addr := alloc h (.numberNode nval)

/-- `Json::Json(const std::string&)` (and the `const char*` overload). -/
def jsonFromString (h : Heap) (str : String) : Heap × Addr := alloc h (.stringNode str)

/-- `Json::operator=(std::nullptr_t)`: `d = details::NullNode::get()`;
returns the unchanged heap and the address the assigned handle is
rebound to. -/
def assignNull (h : Heap) : Heap × Addr := (h, NULL_ADDR)

/-- `Json::operator=(bool)`: `d = val ? BooleanNode::True() : BooleanNode::False()`. -/
def assignBool (h : Heap) (val : Bool) : Heap × Addr :=
  (h, if val then TRUE_ADDR else FALSE_ADDR)

/-- `Json::operator=(int)`: `d = std::make_shared<details::IntegerNode>(val)`. -/
def assignInt (h : Heap) (val : Int) : Heap × Addr := alloc h (.integerNode val)

/-- `Json::operator=(double)`. -/
def assignDouble (h : Heap) (val : ℚ) : Heap × Addr := alloc h (.numberNode val)

/-- `Json::operator=(const std::string&)` (and the `const char*` overload). -/
def assignString (h : Heap) (str : String) : Heap × Addr := alloc h (.stringNode str)

/-- `Json::push`: asserts `isArray()` (modeled as `none` on any other
kind) and appends the element handle to the shared `ArrayNode` in place. -/
def jsonPush (h : Heap) (a : Addr) (x : Addr) : Option Heap :=
  match h.nodes[a]? with
  | some (.arrayNode l) => some ⟨h.nodes.set a (.arrayNode (l ++ [x]))⟩
  | _ => none

/-- `Json::length`: asserts `isArray()` and returns `value.size()`. -/
def jsonLength (h : Heap) (a : Addr) : Option Nat :=
  match h.nodes[a]? with
  | some (.arrayNode l) => some l.length
  | _ => none

/-- The outcome of an element access in the C++ semantics. -/
inductive AccessResult (α : Type) where
  | ok (val : α)
  | outOfRangeError
  | undefinedBehavior
deriving DecidableEq

/-- `Json::at(int)`: asserts `isArray()` (modeled as undefined behavior on
other kinds) and calls `std::vector::at`, which throws `std::out_of_range`
when the index, converted to `size_t`, is not below the size; a negative
`int` index converts to a huge `size_t` and therefore also throws. -/
def jsonAt (h : Heap) (a : Addr) (index : Int) : AccessResult Addr :=
  match h.nodes[a]? with
  | some (.arrayNode l) =>
    if 0 ≤ index then
      match l[index.toNat]? with
      | some e => .ok e
      | none => .outOfRangeError
    else .outOfRangeError
  | _ => .undefinedBehavior

/-- `Json::operator[](int)`: asserts `isArray()` and calls the unchecked
`std::vector::operator[]`, whose behavior outside `[0, size)` is
undefined (no error is reported). -/
def jsonIndexRead (h : Heap) (a : Addr) (index : Int) : AccessResult Addr :=
  match h.nodes[a]? with
  | some (.arrayNode l) =>
    if 0 ≤ index then
      match l[index.toNat]? with
      | some e => .ok e
      | none => .undefinedBehavior
    else .undefinedBehavior
  | _ => .undefinedBehavior

/-- `std::map::find` on the key-sorted entry list of an `ObjectNode`. -/
def objFind (m : List (String × Addr)) (key : String) : Option Addr :=
  (m.find? (fun p => p.1 == key)).map (·.2)

/-- `Json::operator[](const std::string&) const`: asserts `isObject()`
(modeled as `none`), then returns the mapped handle when the key is
present and `Json(nullptr)` — the canonical Null singleton — otherwise. -/
def objGetConst (h : Heap) (a : Addr) (key : String) : Option Addr :=
  match h.nodes[a]? with
  | some (.objectNode m) => some ((objFind m key).getD NULL_ADDR)
  | _ => none

/-- Insertion into the key-sorted entry list of a `std::map`, for a key
not already present. -/
def mapInsertSorted (m : List (String × Addr)) (key : String) (v : Addr) :
    List (String × Addr) :=
  match m with
  | [] => [(key, v)]
  | (k1, v1) :: rest =>
    if key < k1 then (key, v) :: (k1, v1) :: rest
    else (k1, v1) :: mapInsertSorted rest key v

/-- `Json::operator[](const std::string&)` (non-const): asserts
`isObject()`, then applies `std::map::operator[]`, which returns the
mapped handle when the key is present and otherwise inserts the key bound
to a default-constructed `Json` (a fresh empty `ObjectNode`) and returns
it. -/
def objGetMut (h : Heap) (a : Addr) (key : String) : Option (Heap × Addr) :=
  match h.nodes[a]? with
  | some (.objectNode m) =>
    match objFind m key with
    | some v => some (h, v)
    | none =>
      let fresh := h.nodes.length
      let h1 : Heap := ⟨(h.nodes ++ [Node.objectNode []]).set a
        (.objectNode (mapInsertSorted m key fresh))⟩
      some (h1, fresh)
  | _ => none

/-- `Object::data().size()` seen through a handle. -/
def objSize (h : Heap) (a : Addr) : Option Nat :=
  match h.nodes[a]? with
  | some (.objectNode m) => some m.length
  | _ => none

/-- `Array::Array(const std::shared_ptr<details::Node>&)` as used by
`Json::toArray`: keeps the node when `impl->type() == JsonType::Array`,
otherwise falls back to `NullNode::get()`; never fails. -/
def toArrayView (h : Heap) (a : Addr) : Addr :=
  if typeOf h a = some JsonType.Array then a else NULL_ADDR

/-- `Object::Object(const std::shared_ptr<details::Node>&)` as used by
`Json::toObject`: keeps the node when its type is `Object`, otherwise
falls back to `NullNode::get()`; never fails. -/
def toObjectView (h : Heap) (a : Addr) : Addr :=
  if typeOf h a = some JsonType.Object then a else NULL_ADDR

/-- A JSON value as a pure tree, for the read-only comparison algorithm:
`compare` only reads the structure reachable from its two handles, so its
behavior is a function of the trees those handles denote (the spec
excludes cyclic structures).  Payloads are as in the `Node` classes;
arrays hold their elements in order, objects hold their entries in key
order (`std::map` iteration order). -/
inductive JsonVal where
  | null
  | boolean (value : Bool)
  | integer (value : Int)
  | number (value : ℚ)
  | string (value : String)
  | array (value : List JsonVal)
  | object (value : List (String × JsonVal))

/-- `static_cast<int>(type())` of the node a `JsonVal` denotes. -/
def JsonVal.typeIdx : JsonVal → Int
  | .null => 0
  | .boolean _ => 1
  | .integer _ => 2
  | .number _ => 3
  | .string _ => 4
  | .array _ => 5
  | .object _ => 6

mutual

/-- `json::compare` (json.h lines 442-470): compare the type tags first
(`type_diff` and its sign), then dispatch on the common kind.  The
Integer case is `number_compare` on `int` payloads, whose difference is
computed in `int` and therefore wraps on overflow; the Number case is
`number_compare` on `double` payloads; the Array and Object cases are
`array_compare` and `object_compare`, whose size comparisons and
element-wise loops are inlined here (`listCompare`, `entriesCompare`).
The final catch-all corresponds to the unreachable
`throw std::runtime_error` branch. -/
def compare (lhs rhs : JsonVal) : Int :=
  if lhs.typeIdx - rhs.typeIdx ≠ 0 then sign (lhs.typeIdx - rhs.typeIdx)
  else
    match lhs, rhs with
    | .null, .null => 0
    | .boolean a, .boolean b => (if a then 1 else 0) - (if b then 1 else 0)
    | .integer a, .integer b => sign (wrap32 (a - b))
    | .number a, .number b => qsign (a - b)
    | .string a, .string b => strCompare a b
    | .array a, .array b =>
      if (a.length : Int) - (b.length : Int) ≠ 0 then
        sign ((a.length : Int) - (b.length : Int))
      else listCompare a b
    | .object a, .object b =>
      if (a.length : Int) - (b.length : Int) ≠ 0 then
        sign ((a.length : Int) - (b.length : Int))
      else entriesCompare a b
    | _, _ => 0

/-- The element-wise loop of `array_compare` (json.h lines 405-411): the
first non-zero element comparison wins, otherwise 0.  (It is only ever
reached with lists of equal length.) -/
def listCompare : List JsonVal → List JsonVal → Int
  | x :: xs, y :: ys =>
    let c := compare x y
    if c ≠ 0 then c else listCompare xs ys
  | _, _ => 0

/-- The entry-wise loop of `object_compare` (json.h lines 426-437): walk
both key-ordered entry sequences in parallel, comparing keys first and
values second; the first non-zero result wins, otherwise 0. -/
def entriesCompare : List (String × JsonVal) → List (String × JsonVal) → Int
  | (k1, v1) :: xs, (k2, v2) :: ys =>
    let c := strCompare k1 k2
    if c ≠ 0 then c
    else
      let c2 := compare v1 v2
      if c2 ≠ 0 then c2 else entriesCompare xs ys
  | _, _ => 0

end

/-- The element-wise loop of `array_compare` agrees with the functional
description: zip the two element sequences, compare position-wise and
keep the first non-zero result, defaulting to 0. -/
theorem listCompare_eq_zip (a b : List JsonVal) :
    listCompare a b =
      (((a.zip b).map fun p => compare p.1 p.2).find? fun c => c != 0).getD 0 := by
  induction a generalizing b with
  | nil => simp [listCompare]
  | cons x xs ih =>
    cases b with
    | nil => simp [listCompare]
    | cons y ys =>
      by_cases hc : compare x y = 0
      · simp [listCompare, hc, ih, List.find?, List.zip]
      · have hb : (compare x y != 0) = true := by simp [bne_iff_ne, hc]
        simp [listCompare, hc, List.find?, List.zip, hb]

/-- The entry-wise loop of `object_compare` agrees with the functional
description: zip the two key-ordered entry sequences, compare each pair
by key first and value second, and keep the first non-zero result,
defaulting to 0. -/
theorem entriesCompare_eq_zip (a b : List (String × JsonVal)) :
    entriesCompare a b =
      (((a.zip b).map fun p =>
          if strCompare p.1.1 p.2.1 ≠ 0 then strCompare p.1.1 p.2.1
          else compare p.1.2 p.2.2).find? fun c => c != 0).getD 0 := by
  induction a generalizing b with
  | nil => simp [entriesCompare]
  | cons x xs ih =>
    cases b with
    | nil => simp [entriesCompare]
    | cons y ys =>
      obtain ⟨k1, v1⟩ := x
      obtain ⟨k2, v2⟩ := y
      by_cases hk : strCompare k1 k2 = 0
      · by_cases hv : compare v1 v2 = 0
        · simp [entriesCompare, hk, hv, ih, List.find?, List.zip]
        · have hb : (compare v1 v2 != 0) = true := by simp [bne_iff_ne, hv]
          simp [entriesCompare, hk, hv, List.find?, List.zip, hb]
      · have hb : (strCompare k1 k2 != 0) = true := by simp [bne_iff_ne, hk]
        simp [entriesCompare, hk, List.find?, List.zip, hb]

/-- Inserting a fresh key into the sorted entry list of a `std::map`
grows it by exactly one entry. -/
theorem mapInsertSorted_length (m : List (String × Addr)) (key : String) (v : Addr) :
    (mapInsertSorted m key v).length = m.length + 1 := by
  induction m with
  | nil => simp [mapInsertSorted]
  | cons p rest ih =>
    obtain ⟨k1, v1⟩ := p
    by_cases hlt : key < k1
    · simp [mapInsertSorted, hlt]
    · simp [mapInsertSorted, hlt, ih]

/-- After inserting an absent key, looking that key up finds the freshly
bound value. -/
theorem objFind_insert (m : List (String × Addr)) (key : String) (v : Addr)
    (habs : objFind m key = none) :
    objFind (mapInsertSorted m key v) key = some v := by
  induction m with
  | nil => simp [mapInsertSorted, objFind, List.find?]
  | cons p rest ih =>
    obtain ⟨k1, v1⟩ := p
    simp only [objFind, Option.map_eq_none', List.find?_cons] at habs
    by_cases hk : (k1 == key) = true
    · exfalso
      simp only [hk] at habs
      exact Option.noConfusion habs
    · have hkf : (k1 == key) = false := by simpa using hk
      simp only [hkf] at habs
      have habs' : objFind rest key = none := by
        simp [objFind, habs]
      by_cases hlt : key < k1
      · simp [mapInsertSorted, hlt, objFind, List.find?]
      · simp only [mapInsertSorted, if_neg hlt]
        simpa [objFind, List.find?_cons, hkf] using ih habs'

/-- Claim C9: Every default-constructed value handle points to a fresh
`ObjectNode` with an empty mapping: its kind is `Object` (hence not
`Null`) and it has zero entries. -/
theorem default_constructed_empty_object (h : Heap) :
    typeOf (jsonDefault h).1 (jsonDefault h).2 = some JsonType.Object ∧
    objSize (jsonDefault h).1 (jsonDefault h).2 = some 0 := by
  unfold typeOf objSize jsonDefault alloc
  simp [Node.jsonType]

/-- Claim C1 (counterexample to the claim as stated): the claim says a
scalar reassignment rebinds the assigned handle to a newly created node,
for all five scalar kinds.  But after constructing `a` from the int 5 and
copying `b = a`, the reassignment `a = nullptr` rebinds `a` to the
`NullNode::get()` singleton — an address that already existed in the heap
— not to a newly created node. -/
theorem scalar_reassign_rebinds_to_existing_singleton :
    (assignNull (jsonFromInt initHeap 5).1).2 = NULL_ADDR ∧
    (assignNull (jsonFromInt initHeap 5).1).2 < (jsonFromInt initHeap 5).1.nodes.length := by
  decide

/-- Claim C1 (amended): for a handle `a` of kind Array and a copy `b = a`,
`a.push(x)` makes `x` observable through `b` (its node gains the element,
its length grows by one, and `at` the old length yields `x`); and every
scalar reassignment leaves the node seen by any previously valid handle
`c` unchanged, rebinding only the assigned handle — to the freshly
allocated address for int/double/string, and to the pre-existing
Null/True/False singleton for null/bool. -/
theorem push_aliasing_and_scalar_detach (h : Heap) (a b x : Addr) (l : List Addr)
    (hb : b = a) (ha : h.nodes[a]? = some (.arrayNode l))
    (c : Addr) (hc : c < h.nodes.length)
    (bo : Bool) (i : Int) (q : ℚ) (s : String) :
    (∃ h', jsonPush h a x = some h' ∧
      h'.nodes[b]? = some (.arrayNode (l ++ [x])) ∧
      jsonLength h' b = some (l.length + 1) ∧
      jsonAt h' b (l.length : Int) = .ok x) ∧
    ((assignNull h).1.nodes[c]? = h.nodes[c]? ∧ (assignNull h).2 = NULL_ADDR) ∧
    ((assignBool h bo).1.nodes[c]? = h.nodes[c]? ∧
      (assignBool h bo).2 = (if bo then TRUE_ADDR else FALSE_ADDR)) ∧
    ((assignInt h i).1.nodes[c]? = h.nodes[c]? ∧ (assignInt h i).2 = h.nodes.length) ∧
    ((assignDouble h q).1.nodes[c]? = h.nodes[c]? ∧ (assignDouble h q).2 = h.nodes.length) ∧
    ((assignString h s).1.nodes[c]? = h.nodes[c]? ∧ (assignString h s).2 = h.nodes.length) := by
  subst hb
  have halt : b < h.nodes.length := by
    by_contra hge
    rw [List.getElem?_eq_none (Nat.le_of_not_lt hge)] at ha
    exact Option.noConfusion ha
  have hfr : ∀ n : Node, (h.nodes ++ [n])[c]? = h.nodes[c]? := by
    intro n
    rw [List.getElem?_append]
    simp [hc]
  refine ⟨?_, ?_, ?_, ?_, ?_, ?_⟩
  · refine ⟨⟨h.nodes.set b (.arrayNode (l ++ [x]))⟩, ?_, ?_, ?_, ?_⟩
    · unfold jsonPush
      rw [ha]
    · exact List.getElem?_set_self halt
    · unfold jsonLength
      rw [List.getElem?_set_self halt]
      simp
    · unfold jsonAt
      rw [List.getElem?_set_self halt]
      simp [List.getElem?_concat_length]
  · exact ⟨rfl, rfl⟩
  · exact ⟨rfl, rfl⟩
  · exact ⟨hfr _, rfl⟩
  · exact ⟨hfr _, rfl⟩
  · exact ⟨hfr _, rfl⟩

/-- Claim C1 (witness): the amended aliasing theorem applied to a
concrete heap holding an empty array at address 3: pushing the Null
handle is observed through the copy. -/
theorem push_aliasing_and_scalar_detach_witness :
    ∃ h', jsonPush ⟨[Node.nullNode, Node.booleanNode true, Node.booleanNode false,
        Node.arrayNode []]⟩ 3 0 = some h' ∧
      h'.nodes[3]? = some (.arrayNode [0]) ∧
      jsonLength h' 3 = some 1 ∧
      jsonAt h' 3 0 = .ok 0 := by
  have hmain := push_aliasing_and_scalar_detach
    ⟨[Node.nullNode, Node.booleanNode true, Node.booleanNode false, Node.arrayNode []]⟩
    3 3 0 [] rfl (by decide) 0 (by decide) true 7 0 "x"
  simpa using hmain.1

/-- Claim C2 (counterexample to the claim as stated): two handles both
constructed from the boolean literal `true` do NOT alias the same node —
`Json(bool)` calls `std::make_shared<BooleanNode>` and allocates a fresh
node each time, bypassing the `BooleanNode::True()` singleton; the second
construction even yields a different address than the first. -/
theorem bool_construction_allocates_fresh :
    (jsonFromBool (jsonFromBool initHeap true).1 true).2 ≠ (jsonFromBool initHeap true).2 ∧
    (jsonFromBool initHeap true).2 ≠ TRUE_ADDR ∧
    typeOf (jsonFromBool (jsonFromBool initHeap true).1 true).1
      (jsonFromBool initHeap true).2 = some JsonType.Boolean := by
  decide

/-- Claim C2 (amended): the Null node is never duplicated — construction
from null always yields the `NullNode::get()` singleton address without
allocating, so any two handles constructed from null alias the identical
node; the True/False singleton nodes are reused by boolean assignment
(`operator=`), but construction from a bool allocates a fresh
`BooleanNode`, so handles constructed from the same boolean literal do
not share their node. -/
theorem singleton_reuse (h h2 : Heap) (bval : Bool) (hg : goodHeap h) :
    ((jsonFromNull h).2 = NULL_ADDR ∧ (jsonFromNull h).1 = h ∧
      (jsonFromNull h2).2 = (jsonFromNull h).2 ∧
      typeOf h (jsonFromNull h).2 = some JsonType.Null) ∧
    ((assignBool h bval).1 = h ∧
      (assignBool h bval).2 = (if bval then TRUE_ADDR else FALSE_ADDR) ∧
      typeOf h (assignBool h bval).2 = some JsonType.Boolean) ∧
    ((jsonFromBool h bval).2 = h.nodes.length ∧
      (jsonFromBool (jsonFromBool h bval).1 bval).2 ≠ (jsonFromBool h bval).2) := by
  obtain ⟨hn, ht, hf⟩ := hg
  refine ⟨⟨rfl, rfl, rfl, ?_⟩, ⟨rfl, rfl, ?_⟩, ⟨rfl, ?_⟩⟩
  · simp [typeOf, jsonFromNull, hn, Node.jsonType]
  · cases bval
    · simp [typeOf, assignBool, hf, Node.jsonType]
    · simp [typeOf, assignBool, ht, Node.jsonType]
  · simp [jsonFromBool, alloc]

/-- Claim C2 (witness): on the startup heap, construction from null
yields the singleton address and construction from `true` allocates at
the fresh address. -/
theorem singleton_reuse_witness :
    (jsonFromNull initHeap).2 = NULL_ADDR ∧
    (jsonFromBool initHeap true).2 = initHeap.nodes.length := by
  have hmain := singleton_reuse initHeap initHeap true (by decide)
  exact ⟨hmain.1.1, hmain.2.2.1⟩

/-- Claim C3 (failure of the claim on the code): `compare` is not
antisymmetric, hence not a total order.  `number_compare` subtracts the
two `int` payloads in `int`; for INT_MAX and -1 the difference 2^31
overflows (undefined behavior in C++, wraparound to -2^31 on the usual
two's-complement targets), so `compare` answers -1 in BOTH directions
where a total order demands opposite signs. -/
theorem compare_antisymmetry_overflow :
    compare (.integer 2147483647) (.integer (-1)) = -1 ∧
    compare (.integer (-1)) (.integer 2147483647) = -1 ∧
    compare (.integer 2147483647) (.integer (-1)) ≠
      - compare (.integer (-1)) (.integer 2147483647) := by
  decide

/-- Claim C4 (failure of the claim on the code): for Integer payloads
x = 2147483646 and y = -2, the mathematical difference x - y = 2^31 is
positive, so the claim demands +1; but the difference is computed in
`int`, overflows to -2^31, and `compare` answers -1. -/
theorem integer_compare_overflow_sign :
    compare (.integer 2147483646) (.integer (-2)) = -1 ∧
    sign ((2147483646 : Int) - (-2 : Int)) = 1 := by
  decide

/-- Claim C5 (counterexample to the claim as stated): on an array of
length 1, the indexed element access `operator[](int)` at index 1 does
NOT fail with an index-out-of-range error: it calls the unchecked
`std::vector::operator[]`, whose out-of-range behavior is undefined —
no error is reported. -/
theorem indexed_access_out_of_range_is_ub :
    jsonIndexRead ⟨[Node.nullNode, Node.booleanNode true, Node.booleanNode false,
      Node.arrayNode [NULL_ADDR]]⟩ 3 1 = AccessResult.undefinedBehavior ∧
    jsonIndexRead ⟨[Node.nullNode, Node.booleanNode true, Node.booleanNode false,
      Node.arrayNode [NULL_ADDR]]⟩ 3 1 ≠ AccessResult.outOfRangeError := by
  decide

/-- Claim C5 (amended): on a value of kind Array, `at(i)` fails with an
index-out-of-range error exactly when `i < 0` or `i >= length` (never
silently returning Null, clamping or wrapping), and returns the element
at position `i` otherwise; the unchecked `operator[](int)` returns the
same element in range, but out of range its behavior is undefined rather
than a reported out-of-range error. -/
theorem array_read_bounds (h : Heap) (a : Addr) (l : List Addr) (index : Int)
    (ha : h.nodes[a]? = some (.arrayNode l)) :
    ((index < 0 ∨ (l.length : Int) ≤ index) →
      jsonAt h a index = .outOfRangeError ∧
      jsonIndexRead h a index = .undefinedBehavior) ∧
    (0 ≤ index → index < (l.length : Int) →
      ∃ e, l[index.toNat]? = some e ∧
        jsonAt h a index = .ok e ∧ jsonIndexRead h a index = .ok e) := by
  simp only [jsonAt, jsonIndexRead, ha]
  constructor
  · rintro (hneg | hge)
    · have hcond : ¬ 0 ≤ index := by omega
      rw [if_neg hcond, if_neg hcond]
      exact ⟨rfl, rfl⟩
    · have h0 : 0 ≤ index := by omega
      rw [if_pos h0, if_pos h0]
      have hnone : l[index.toNat]? = none := by
        apply List.getElem?_eq_none
        omega
      rw [hnone]
      exact ⟨rfl, rfl⟩
  · intro h0 hlt
    have htn : index.toNat < l.length := by omega
    refine ⟨l[index.toNat], List.getElem?_eq_getElem htn, ?_⟩
    rw [if_pos h0, if_pos h0, List.getElem?_eq_getElem htn]
    exact ⟨rfl, rfl⟩

/-- Claim C5 (witness): `at(5)` on a concrete array of length 1 fails
with the out-of-range error. -/
theorem array_read_bounds_witness :
    jsonAt ⟨[Node.nullNode, Node.booleanNode true, Node.booleanNode false,
      Node.arrayNode [NULL_ADDR]]⟩ 3 5 = AccessResult.outOfRangeError := by
  have hmain := array_read_bounds ⟨[Node.nullNode, Node.booleanNode true,
    Node.booleanNode false, Node.arrayNode [NULL_ADDR]]⟩ 3 [NULL_ADDR] 5 (by decide)
  exact (hmain.1 (Or.inr (by decide))).1

/-- Claim C6: on a value of kind Object, the const keyed lookup of a
missing key returns the canonical Null value (the `NullNode::get()`
singleton) and never fails, and the lookup of a present key returns the
mapped value. -/
theorem object_const_lookup_missing_null (h : Heap) (a : Addr)
    (m : List (String × Addr)) (key : String)
    (ha : h.nodes[a]? = some (.objectNode m)) :
    (objFind m key = none → objGetConst h a key = some NULL_ADDR) ∧
    (∀ v, objFind m key = some v → objGetConst h a key = some v) ∧
    (goodHeap h → typeOf h NULL_ADDR = some JsonType.Null) := by
  refine ⟨?_, ?_, ?_⟩
  · intro hnone
    simp [objGetConst, ha, hnone]
  · intro v hv
    simp [objGetConst, ha, hv]
  · intro hg
    obtain ⟨hn, -, -⟩ := hg
    simp [typeOf, hn, Node.jsonType]

/-- Claim C6 (witness): looking up the missing key "b" in a concrete
object returns the canonical Null address. -/
theorem object_const_lookup_missing_null_witness :
    objGetConst ⟨[Node.nullNode, Node.booleanNode true, Node.booleanNode false,
      Node.objectNode [("a", 1)]]⟩ 3 "b" = some NULL_ADDR := by
  have hmain := object_const_lookup_missing_null ⟨[Node.nullNode, Node.booleanNode true,
    Node.booleanNode false, Node.objectNode [("a", 1)]]⟩ 3 [("a", 1)] "b" (by decide)
  exact hmain.1 (by decide)

/-- Claim C7: `toArray()` and `toObject()` are total (they never throw):
the view aliases the handle's own node when the kind matches the
requested container kind, and otherwise aliases the canonical Null node
— in particular `toArray()` on a value of kind String yields a handle
whose kind is Null. -/
theorem view_conversion_never_fails (h : Heap) (a : Addr) (t : JsonType)
    (ht : typeOf h a = some t) (hg : goodHeap h) :
    (t = JsonType.Array → toArrayView h a = a) ∧
    (t ≠ JsonType.Array →
      toArrayView h a = NULL_ADDR ∧ typeOf h (toArrayView h a) = some JsonType.Null) ∧
    (t = JsonType.Object → toObjectView h a = a) ∧
    (t ≠ JsonType.Object →
      toObjectView h a = NULL_ADDR ∧ typeOf h (toObjectView h a) = some JsonType.Null) := by
  obtain ⟨hn, -, -⟩ := hg
  refine ⟨?_, ?_, ?_, ?_⟩
  · intro hta
    subst hta
    simp [toArrayView, ht]
  · intro hta
    have hne : ¬ typeOf h a = some JsonType.Array := by
      rw [ht]
      simpa using hta
    have hra : toArrayView h a = NULL_ADDR := by
      unfold toArrayView
      rw [if_neg hne]
    refine ⟨hra, ?_⟩
    rw [hra]
    simp [typeOf, hn, Node.jsonType]
  · intro hto
    subst hto
    simp [toObjectView, ht]
  · intro hto
    have hne : ¬ typeOf h a = some JsonType.Object := by
      rw [ht]
      simpa using hto
    have hro : toObjectView h a = NULL_ADDR := by
      unfold toObjectView
      rw [if_neg hne]
    refine ⟨hro, ?_⟩
    rw [hro]
    simp [typeOf, hn, Node.jsonType]

/-- Claim C7 (witness): `toArray()` on a concrete String value yields the
canonical Null node, whose kind is Null. -/
theorem view_conversion_never_fails_witness :
    toArrayView ⟨[Node.nullNode, Node.booleanNode true, Node.booleanNode false,
      Node.stringNode "s"]⟩ 3 = NULL_ADDR ∧
    typeOf ⟨[Node.nullNode, Node.booleanNode true, Node.booleanNode false,
      Node.stringNode "s"]⟩ (toArrayView ⟨[Node.nullNode, Node.booleanNode true,
      Node.booleanNode false, Node.stringNode "s"]⟩ 3) = some JsonType.Null := by
  have hmain := view_conversion_never_fails ⟨[Node.nullNode, Node.booleanNode true,
    Node.booleanNode false, Node.stringNode "s"]⟩ 3 JsonType.String (by decide) (by decide)
  exact hmain.2.1 (by decide)

/-- Claim C8: two Arrays compare by length first (shorter sorts first);
at equal length the first non-zero element comparison in index order
decides, else 0.  Two Objects compare by entry count first (fewer
entries sorts first); at equal count the key-ordered entry sequences are
walked in parallel, key compared first and value second, the first
non-zero result deciding, else 0. -/
theorem container_compare_structure (a b : List JsonVal)
    (kvs lws : List (String × JsonVal)) :
    compare (.array a) (.array b) =
      (if a.length < b.length then -1
       else if b.length < a.length then 1
       else (((a.zip b).map fun p => compare p.1 p.2).find? fun c => c != 0).getD 0) ∧
    compare (.object kvs) (.object lws) =
      (if kvs.length < lws.length then -1
       else if lws.length < kvs.length then 1
       else (((kvs.zip lws).map fun p =>
           if strCompare p.1.1 p.2.1 ≠ 0 then strCompare p.1.1 p.2.1
           else compare p.1.2 p.2.2).find? fun c => c != 0).getD 0) := by
  constructor
  · rw [compare]
    simp only [JsonVal.typeIdx]
    rcases Nat.lt_trichotomy a.length b.length with hlt | heq | hgt
    · have h1 : ((a.length : Int) - (b.length : Int)) < 0 := by omega
      simp [sign, h1, hlt, (by omega : ¬ ((a.length : Int) - (b.length : Int)) = 0),
        (by omega : ¬ b.length < a.length)]
      omega
    · simp [heq, listCompare_eq_zip]
    · have h1 : 0 < ((a.length : Int) - (b.length : Int)) := by omega
      simp [sign, h1, (by omega : ¬ ((a.length : Int) - (b.length : Int)) = 0),
        (by omega : ¬ a.length < b.length), hgt]
      omega
  · rw [compare]
    simp only [JsonVal.typeIdx]
    rcases Nat.lt_trichotomy kvs.length lws.length with hlt | heq | hgt
    · have h1 : ((kvs.length : Int) - (lws.length : Int)) < 0 := by omega
      simp [sign, h1, hlt, (by omega : ¬ ((kvs.length : Int) - (lws.length : Int)) = 0),
        (by omega : ¬ lws.length < kvs.length)]
      omega
    · simp [heq, entriesCompare_eq_zip]
    · have h1 : 0 < ((kvs.length : Int) - (lws.length : Int)) := by omega
      simp [sign, h1, (by omega : ¬ ((kvs.length : Int) - (lws.length : Int)) = 0),
        (by omega : ¬ kvs.length < lws.length), hgt]
      omega

/-- Claim C10: on a value of kind Object, the non-const keyed access of
an absent key inserts that key into the shared node — bound to a freshly
allocated default-constructed value, i.e. an empty object of kind Object
(not Null) — and returns it, growing the mapping by one entry; the const
lookup of the same key instead just answers the canonical Null without
touching the heap. -/
theorem mutable_lookup_inserts_empty_object (h : Heap) (a : Addr)
    (m : List (String × Addr)) (key : String)
    (ha : h.nodes[a]? = some (.objectNode m)) (habs : objFind m key = none) :
    ∃ h1 r, objGetMut h a key = some (h1, r) ∧
      r = h.nodes.length ∧
      h1.nodes[a]? = some (.objectNode (mapInsertSorted m key r)) ∧
      objFind (mapInsertSorted m key r) key = some r ∧
      (mapInsertSorted m key r).length = m.length + 1 ∧
      typeOf h1 r = some JsonType.Object ∧
      objSize h1 r = some 0 ∧
      objGetConst h a key = some NULL_ADDR := by
  have halt : a < h.nodes.length := by
    by_contra hge
    rw [List.getElem?_eq_none (Nat.le_of_not_lt hge)] at ha
    exact Option.noConfusion ha
  have hne : a ≠ h.nodes.length := Nat.ne_of_lt halt
  refine ⟨⟨(h.nodes ++ [Node.objectNode []]).set a
      (.objectNode (mapInsertSorted m key h.nodes.length))⟩, h.nodes.length,
    ?_, rfl, ?_, objFind_insert m key _ habs, mapInsertSorted_length m key _, ?_, ?_, ?_⟩
  · simp [objGetMut, ha, habs]
  · apply List.getElem?_set_self
    simp only [List.length_append, List.length_cons, List.length_nil]
    exact Nat.lt_succ_of_lt halt
  · unfold typeOf
    rw [List.getElem?_set_ne hne, List.getElem?_concat_length]
    rfl
  · unfold objSize
    rw [List.getElem?_set_ne hne, List.getElem?_concat_length]
    rfl
  · simp [objGetConst, ha, habs]

/-- Claim C10 (witness): accessing the missing key "k" of a concrete
empty object inserts a fresh node of kind Object at the next free
address. -/
theorem mutable_lookup_inserts_empty_object_witness :
    ∃ h1 r, objGetMut ⟨[Node.nullNode, Node.booleanNode true, Node.booleanNode false,
      Node.objectNode []]⟩ 3 "k" = some (h1, r) ∧ r = 4 ∧
      typeOf h1 r = some JsonType.Object := by
  obtain ⟨h1, r, h1eq, hr, -, -, -, hty, -, -⟩ := mutable_lookup_inserts_empty_object
    ⟨[Node.nullNode, Node.booleanNode true, Node.booleanNode false, Node.objectNode []]⟩
    3 [] "k" (by decide) (by decide)
  exact ⟨h1, r, h1eq, hr, hty⟩

end json
